import Mathlib

/-!
# Verification of the `owl` observability library

A shallow embedding of the core of the `owl` Go library: the status-code
taxonomy, the semantic error type (`owl.Error`), the status translators,
the HTTP/gRPC server interceptors, the HTTP client wrapper with response
hydration (`CheckResponse`), and the global logger/monitor registry.

Modelling conventions:
* Go `uint32` codes are `Nat` (no arithmetic is ever performed on them);
  HTTP status `int` is `Int`.
* Go `error` values are the inductive `GoError`; a `nil` error is `none`
  in an `Option GoError`.
* Effects (log calls, metric calls, the bytes written to the response)
  are returned as explicit event lists / fields of a result record.
* Wall-clock time is a logical clock: trace extraction and the wrapped
  handler advance the clock by given amounts; `time.Now` reads it.
* JSON numbers are modelled with their integer part only (no claim
  inspects a fractional value).
-/

namespace Owl

/-! ## Status-code taxonomy (`types.go`)

Go: `type Code uint32` with named constants.  We keep the numeric values. -/

def codeUnknown : Nat := 0
def codeOK : Nat := 200
def codeInvalid : Nat := 400
def codeUnauthorized : Nat := 401
def codePermissionDenied : Nat := 403
def codeNotFound : Nat := 404
def codeInternal : Nat := 500
def codeUnavailable : Nat := 503
def codeDeadlineExceeded : Nat := 504

/-- `Code.String()`: the stable uppercase symbolic name of a code. -/
def codeString (c : Nat) : String :=
  if c = codeOK then "OK"
  else if c = codeInvalid then "INVALID"
  else if c = codeUnauthorized then "UNAUTHORIZED"
  else if c = codePermissionDenied then "PERMISSION_DENIED"
  else if c = codeNotFound then "NOT_FOUND"
  else if c = codeInternal then "INTERNAL"
  else if c = codeUnavailable then "UNAVAILABLE"
  else if c = codeDeadlineExceeded then "DEADLINE_EXCEEDED"
  else "UNKNOWN"

/-- `Code.UnmarshalJSON`, the string-to-code part: unrecognized names map
to `CodeUnknown`. -/
def parseCode (s : String) : Nat :=
  if s = "OK" then codeOK
  else if s = "INVALID" then codeInvalid
  else if s = "UNAUTHORIZED" then codeUnauthorized
  else if s = "PERMISSION_DENIED" then codePermissionDenied
  else if s = "NOT_FOUND" then codeNotFound
  else if s = "INTERNAL" then codeInternal
  else if s = "UNAVAILABLE" then codeUnavailable
  else if s = "DEADLINE_EXCEEDED" then codeDeadlineExceeded
  else codeUnknown

/-! ## JSON values and Go `encoding/json` marshaling -/

/-- A JSON value (Go `any` on the decoded side).  Numbers carry their
integer part only. -/
inductive Json where
  | null : Json
  | bool (b : Bool) : Json
  | num (n : Int) : Json
  | str (s : String) : Json
  | arr (xs : List Json) : Json
  | obj (fields : List (String × Json)) : Json

/-- The `U+007B` left-brace character (kept out of literals). -/
def braceOpen : Char := Char.ofNat 123

/-- The `U+007D` right-brace character (kept out of literals). -/
def braceClose : Char := Char.ofNat 125

def hexDigit (n : Nat) : String :=
  if n < 10 then String.singleton (Char.ofNat (48 + n))
  else String.singleton (Char.ofNat (97 + (n - 10)))

/-- Go `encoding/json` string escaping: quotes, backslash, control
characters, and (HTML-safe by default) `<`, `>`, `&`, U+2028, U+2029. -/
def escapeChar (c : Char) : String :=
  if c = '"' then "\\\""
  else if c = '\\' then "\\\\"
  else if c = '\n' then "\\n"
  else if c = '\r' then "\\r"
  else if c = '\t' then "\\t"
  else if c = '<' then "\\u003c"
  else if c = '>' then "\\u003e"
  else if c = '&' then "\\u0026"
  else if c.toNat < 32 then "\\u00" ++ hexDigit (c.toNat / 16) ++ hexDigit (c.toNat % 16)
  else if c.toNat = 8232 then "\\u2028"
  else if c.toNat = 8233 then "\\u2029"
  else String.singleton c

/-- Marshal a Go string as a JSON string literal. -/
def quoteString (s : String) : String :=
  "\"" ++ String.join (s.toList.map escapeChar) ++ "\""

mutual

/-- `json.Marshal` on a decoded JSON value. -/
def marshalJson : Json → String
  | .null => "null"
  | .bool true => "true"
  | .bool false => "false"
  | .num n => toString n
  | .str s => quoteString s
  | .arr xs => "[" ++ marshalJsonArr xs ++ "]"
  | .obj fs => String.singleton braceOpen ++ marshalJsonFields fs ++ String.singleton braceClose

def marshalJsonArr : List Json → String
  | [] => ""
  | [x] => marshalJson x
  | x :: y :: rest => marshalJson x ++ "," ++ marshalJsonArr (y :: rest)

def marshalJsonFields : List (String × Json) → String
  | [] => ""
  | [(k, v)] => quoteString k ++ ":" ++ marshalJson v
  | (k, v) :: f :: rest =>
      quoteString k ++ ":" ++ marshalJson v ++ "," ++ marshalJsonFields (f :: rest)

end

/-! ## Go error values and the semantic error (`owl.Error`) -/

/-- A Go `error` value.
* `basic` — an opaque error (e.g. `errors.New`), identified by its message;
* `grpcStatus` — an error implementing the gRPC status interface;
* `owl` — a `*owl.Error` with fields `Code, Msg, SafeMsg, Op, Err, Details`
  (`Details` is `none` for a nil Go map);
* `join` — the `*joinError` produced by `errors.Join` (non-nil operands). -/
inductive GoError where
  | basic (msg : String) : GoError
  | grpcStatus (code : Nat) (msg : String) : GoError
  | owl (code : Nat) (msg safeMsg op : String) (cause : Option GoError)
        (details : Option (List (String × Json))) : GoError
  | join (errs : List GoError) : GoError

/-- The field record of a `*owl.Error` (the same data as `GoError.owl`). -/
structure OwlError where
  code : Nat
  msg : String := ""
  safeMsg : String := ""
  op : String := ""
  cause : Option GoError := none
  details : Option (List (String × Json)) := none

def GoError.ofOwl (e : OwlError) : GoError :=
  .owl e.code e.msg e.safeMsg e.op e.cause e.details

/-- Go type assertion `err.(*owl.Error)`: matches only a direct owl error. -/
def GoError.asOwlDirect : GoError → Option OwlError
  | .owl c m s o e d => some ⟨c, m, s, o, e, d⟩
  | _ => none

mutual

/-- `errors.As(err, &e)` for target `**owl.Error`: the error itself, or a
depth-first search through `Unwrap() []error` of a joined error. -/
def errorsAsOwl : GoError → Option OwlError
  | .basic _ => none
  | .grpcStatus _ _ => none
  | .owl c m s o e d => some ⟨c, m, s, o, e, d⟩
  | .join errs => errorsAsOwlList errs

def errorsAsOwlList : List GoError → Option OwlError
  | [] => none
  | e :: rest =>
      match errorsAsOwl e with
      | some x => some x
      | none => errorsAsOwlList rest

end

/-- `status.FromError`: succeeds only for an error carrying a gRPC status. -/
def statusFromError : GoError → Option (Nat × String)
  | .grpcStatus c m => some (c, m)
  | _ => none

/-! ## Error builder (`safe.go` options: `Problem`, `WithMsg`, ...) -/

/-- A functional option passed to `owl.Problem`.  `withErr none` models
`owl.WithErr(nil)`. -/
inductive ErrOption where
  | withMsg (s : String) : ErrOption
  | withSafeMsg (s : String) : ErrOption
  | withOp (s : String) : ErrOption
  | withErr (e : Option GoError) : ErrOption
  | withDetails (ds : List (String × Json)) : ErrOption

/-- `errors.Join(a, b)`: drops nil operands; yields nil when both are nil,
otherwise a `joinError` over the non-nil operands. -/
def goErrorsJoin (a b : Option GoError) : Option GoError :=
  match a, b with
  | none, none => none
  | some x, none => some (.join [x])
  | none, some y => some (.join [y])
  | some x, some y => some (.join [x, y])

/-- `owl.WithErr`: joins with a previously attached cause, else sets it. -/
def withErrApply (prior : Option GoError) (e : Option GoError) : Option GoError :=
  match prior with
  | some p => goErrorsJoin (some p) e
  | none => e

/-- Set a key in a (insertion-ordered) detail map, replacing an existing
entry for the same key: `e.Details[k] = v`. -/
def detailSet : List (String × Json) → String → Json → List (String × Json)
  | [], k, v => [(k, v)]
  | (k0, v0) :: rest, k, v =>
      if k = k0 then (k, v) :: rest else (k0, v0) :: detailSet rest k v

/-- `owl.WithDetails` body: fold the new entries into the existing map. -/
def detailsUnion (old : List (String × Json)) (ds : List (String × Json)) :
    List (String × Json) :=
  ds.foldl (fun acc kv => detailSet acc kv.1 kv.2) old

/-- Apply one functional option to an error under construction. -/
def applyOption (e : OwlError) : ErrOption → OwlError
  | .withMsg s => { e with msg := s }
  | .withSafeMsg s => { e with safeMsg := s }
  | .withOp s => { e with op := s }
  | .withErr x => { e with cause := withErrApply e.cause x }
  | .withDetails ds => { e with details := some (detailsUnion (e.details.getD []) ds) }

/-- `owl.Problem(code, opts...)`: build an error and apply each option in
the order given. -/
def Problem (code : Nat) (opts : List ErrOption) : OwlError :=
  opts.foldl applyOption { code := code }

/-! ## `Error.MarshalJSON` (the wire projection) -/

/-- The `message` field of the wire projection: the safe message, falling
back to the code symbol when unset. -/
def wireMessage (e : OwlError) : String :=
  if e.safeMsg = "" then codeString e.code else e.safeMsg

/-- `Error.MarshalJSON`: marshal the anonymous struct
`(Code: symbol, Message: safe-or-fallback, Details: omitempty)`.
A nil or empty detail map is omitted (`omitempty`). -/
def marshalOwlError (e : OwlError) : String :=
  marshalJson (.obj
    ([("code", .str (codeString e.code)), ("message", .str (wireMessage e))] ++
      (match e.details with
       | none => []
       | some [] => []
       | some ds => [("details", .obj ds)])))

/-! ## Status translators (`convert.go`) -/

/-- `ToHTTPStatus(err)`: 200 for nil, table lookup for a semantic error
found by `errors.As`, 500 otherwise (also for codes outside the table). -/
def toHTTPStatus (err : Option GoError) : Int :=
  match err with
  | none => 200
  | some e =>
      match errorsAsOwl e with
      | some oe =>
          if oe.code = codeOK then 200
          else if oe.code = codeInvalid then 400
          else if oe.code = codeUnauthorized then 401
          else if oe.code = codePermissionDenied then 403
          else if oe.code = codeNotFound then 404
          else if oe.code = codeUnavailable then 503
          else if oe.code = codeDeadlineExceeded then 504
          else if oe.code = codeInternal then 500
          else 500
      | none => 500

/-- `FromHTTPStatus(code)`: exact matches for the canonical statuses
(and 201/202/204 to OK), then generic 4xx to Invalid, 5xx to Internal,
anything else to Unknown. -/
def fromHTTPStatus (status : Int) : Nat :=
  if status = 200 ∨ status = 201 ∨ status = 202 ∨ status = 204 then codeOK
  else if status = 400 then codeInvalid
  else if status = 401 then codeUnauthorized
  else if status = 403 then codePermissionDenied
  else if status = 404 then codeNotFound
  else if status = 503 then codeUnavailable
  else if status = 504 then codeDeadlineExceeded
  else if status = 500 then codeInternal
  else if 400 ≤ status ∧ status < 500 then codeInvalid
  else if 500 ≤ status then codeInternal
  else codeUnknown

/-! gRPC status codes (`google.golang.org/grpc/codes`), as their numeric
values. -/

def grpcOK : Nat := 0
def grpcUnknown : Nat := 2
def grpcInvalidArgument : Nat := 3
def grpcDeadlineExceeded : Nat := 4
def grpcNotFound : Nat := 5
def grpcPermissionDenied : Nat := 7
def grpcInternal : Nat := 13
def grpcUnavailable : Nat := 14
def grpcUnauthenticated : Nat := 16

/-- `codes.Code.String()` for the codes this library emits. -/
def grpcCodeName (c : Nat) : String :=
  if c = grpcOK then "OK"
  else if c = grpcUnknown then "Unknown"
  else if c = grpcInvalidArgument then "InvalidArgument"
  else if c = grpcDeadlineExceeded then "DeadlineExceeded"
  else if c = grpcNotFound then "NotFound"
  else if c = grpcPermissionDenied then "PermissionDenied"
  else if c = grpcInternal then "Internal"
  else if c = grpcUnavailable then "Unavailable"
  else if c = grpcUnauthenticated then "Unauthenticated"
  else "Code(" ++ toString c ++ ")"

/-- `ToGRPCStatus(err)`: a (code, message) pair.  The message is the safe
message (falling back to the symbol); a non-semantic error yields
`(Unknown, "internal server error")`. -/
def toGRPCStatus (err : Option GoError) : Nat × String :=
  match err with
  | none => (grpcOK, "OK")
  | some e =>
      match errorsAsOwl e with
      | some oe =>
          let code :=
            if oe.code = codeOK then grpcOK
            else if oe.code = codeInvalid then grpcInvalidArgument
            else if oe.code = codeUnauthorized then grpcUnauthenticated
            else if oe.code = codePermissionDenied then grpcPermissionDenied
            else if oe.code = codeNotFound then grpcNotFound
            else if oe.code = codeInternal then grpcInternal
            else if oe.code = codeUnavailable then grpcUnavailable
            else if oe.code = codeDeadlineExceeded then grpcDeadlineExceeded
            else grpcUnknown
          (code, wireMessage oe)
      | none => (grpcUnknown, "internal server error")

/-- `FromGRPCStatus(code)`: inverse table with Unknown as default. -/
def fromGRPCStatus (c : Nat) : Nat :=
  if c = grpcOK then codeOK
  else if c = grpcInvalidArgument then codeInvalid
  else if c = grpcUnauthenticated then codeUnauthorized
  else if c = grpcPermissionDenied then codePermissionDenied
  else if c = grpcNotFound then codeNotFound
  else if c = grpcUnavailable then codeUnavailable
  else if c = grpcDeadlineExceeded then codeDeadlineExceeded
  else if c = grpcInternal then codeInternal
  else codeUnknown

/-! ## A JSON reader (the fragment of `encoding/json` decoding the client
uses).  `json.Unmarshal` accepts leading/trailing whitespace around the
top-level value and rejects trailing non-whitespace data. -/

def isJsonWs (c : Char) : Bool :=
  c = ' ' || c = '\t' || c = '\n' || c = '\r'

def skipWs : List Char → List Char
  | [] => []
  | c :: rest => if isJsonWs c then skipWs rest else c :: rest

def hexVal (c : Char) : Option Nat :=
  if '0' ≤ c ∧ c ≤ '9' then some (c.toNat - 48)
  else if 'a' ≤ c ∧ c ≤ 'f' then some (c.toNat - 97 + 10)
  else if 'A' ≤ c ∧ c ≤ 'F' then some (c.toNat - 65 + 10)
  else none

/-- Decode one escape sequence (the characters after a backslash). -/
def readEscape : List Char → Option (Char × List Char)
  | [] => none
  | e :: rest =>
      if e = '"' then some ('"', rest)
      else if e = '\\' then some ('\\', rest)
      else if e = '/' then some ('/', rest)
      else if e = 'n' then some ('\n', rest)
      else if e = 't' then some ('\t', rest)
      else if e = 'r' then some ('\r', rest)
      else if e = 'b' then some (Char.ofNat 8, rest)
      else if e = 'f' then some (Char.ofNat 12, rest)
      else if e = 'u' then
        match rest with
        | a :: b :: c :: d :: rest4 =>
            match hexVal a, hexVal b, hexVal c, hexVal d with
            | some va, some vb, some vc, some vd =>
                some (Char.ofNat (((va * 16 + vb) * 16 + vc) * 16 + vd), rest4)
            | _, _, _, _ => none
        | _ => none
      else none

/-- Read a JSON string body (the input starts after the opening quote). -/
def readJString (fuel : Nat) (s : List Char) : Option (String × List Char) :=
  match fuel, s with
  | 0, _ => none
  | _, [] => none
  | fuel + 1, c :: rest =>
      if c = '"' then some ("", rest)
      else if c = '\\' then
        match readEscape rest with
        | some (ch, rest2) =>
            (readJString fuel rest2).map (fun p => (String.singleton ch ++ p.1, p.2))
        | none => none
      else (readJString fuel rest).map (fun p => (String.singleton c ++ p.1, p.2))

def readDigits : List Char → Nat → Nat × List Char
  | c :: rest, acc =>
      if c.isDigit then readDigits rest (acc * 10 + (c.toNat - 48)) else (acc, c :: rest)
  | [], acc => (acc, [])

/-- Read a JSON number.  Only the integer part is retained; fractional and
exponent digits are consumed and dropped (no claim inspects them). -/
def readNumber (s : List Char) : Option (Json × List Char) :=
  let neg := s.head? = some '-'
  let s1 := if neg then s.drop 1 else s
  match s1 with
  | c :: _ =>
      if c.isDigit then
        let (n, rest) := readDigits s1 0
        let rest2 :=
          match rest with
          | '.' :: r => (readDigits r 0).2
          | _ => rest
        let rest3 :=
          match rest2 with
          | e :: r =>
              if e = 'e' ∨ e = 'E' then
                match r with
                | s2 :: r2 => if s2 = '+' ∨ s2 = '-' then (readDigits r2 0).2 else (readDigits r 0).2
                | [] => []
              else rest2
          | [] => rest2
        some (.num (if neg then -(n : Int) else (n : Int)), rest3)
      else none
  | [] => none

mutual

/-- Parse one JSON value (after skipping leading whitespace). -/
def parseValue (fuel : Nat) (s : List Char) : Option (Json × List Char) :=
  match fuel with
  | 0 => none
  | fuel + 1 =>
      match skipWs s with
      | [] => none
      | c :: rest =>
          if c = braceOpen then parseObject fuel rest
          else if c = '[' then parseArray fuel rest
          else if c = '"' then (readJString fuel rest).map (fun p => (.str p.1, p.2))
          else if ['t', 'r', 'u', 'e'].isPrefixOf (c :: rest) then
            some (.bool true, (c :: rest).drop 4)
          else if ['f', 'a', 'l', 's', 'e'].isPrefixOf (c :: rest) then
            some (.bool false, (c :: rest).drop 5)
          else if ['n', 'u', 'l', 'l'].isPrefixOf (c :: rest) then
            some (.null, (c :: rest).drop 4)
          else readNumber (c :: rest)

/-- Parse an object body (after the opening brace). -/
def parseObject (fuel : Nat) (s : List Char) : Option (Json × List Char) :=
  match fuel with
  | 0 => none
  | fuel + 1 =>
      match skipWs s with
      | [] => none
      | c :: rest =>
          if c = braceClose then some (.obj [], rest)
          else parseMembers fuel (c :: rest)

/-- Parse object members `"k": v (, "k": v)*` up to the closing brace. -/
def parseMembers (fuel : Nat) (s : List Char) : Option (Json × List Char) :=
  match fuel with
  | 0 => none
  | fuel + 1 =>
      match skipWs s with
      | '"' :: rest =>
          match readJString fuel rest with
          | some (key, rest2) =>
              match skipWs rest2 with
              | ':' :: rest3 =>
                  match parseValue fuel rest3 with
                  | some (v, rest4) =>
                      match skipWs rest4 with
                      | ',' :: rest5 =>
                          match parseMembers fuel rest5 with
                          | some (.obj fields, rest6) => some (.obj ((key, v) :: fields), rest6)
                          | _ => none
                      | c :: rest5 =>
                          if c = braceClose then some (.obj [(key, v)], rest5) else none
                      | [] => none
                  | none => none
              | _ => none
          | none => none
      | _ => none

/-- Parse an array body (after the opening bracket). -/
def parseArray (fuel : Nat) (s : List Char) : Option (Json × List Char) :=
  match fuel with
  | 0 => none
  | fuel + 1 =>
      match skipWs s with
      | [] => none
      | c :: rest =>
          if c = ']' then some (.arr [], rest)
          else parseElems fuel (c :: rest)

/-- Parse array elements `v (, v)*` up to the closing bracket. -/
def parseElems (fuel : Nat) (s : List Char) : Option (Json × List Char) :=
  match fuel with
  | 0 => none
  | fuel + 1 =>
      match parseValue fuel s with
      | some (v, rest) =>
          match skipWs rest with
          | ',' :: rest2 =>
              match parseElems fuel rest2 with
              | some (.arr xs, rest3) => some (.arr (v :: xs), rest3)
              | _ => none
          | ']' :: rest2 => some (.arr [v], rest2)
          | _ => none
      | none => none

end

/-- Parse a complete JSON document (with generous fuel). -/
def jsonUnmarshal (s : String) : Option Json :=
  let cs := s.toList
  match parseValue (cs.length + 2) cs with
  | some (v, rest) => if skipWs rest = [] then some v else none
  | none => none

/-- Decode the fields of a JSON object into an `owl.Error` under its
struct tags (`code`, `message`, `safe_message`, `op`, `details`; the
`Err` field is tagged `-`).  A later duplicate key wins; an unknown key
is ignored; a type mismatch is a decode error; `null` leaves the field
untouched.  (Go also matches keys case-insensitively; the claims only
exercise exact-case keys.) -/
def unmarshalFold (e : OwlError) : List (String × Json) → Option OwlError
  | [] => some e
  | (k, v) :: rest =>
      if k = "code" then
        match v with
        | .str s => unmarshalFold { e with code := parseCode s } rest
        | .null => unmarshalFold e rest
        | _ => none
      else if k = "message" then
        match v with
        | .str s => unmarshalFold { e with msg := s } rest
        | .null => unmarshalFold e rest
        | _ => none
      else if k = "safe_message" then
        match v with
        | .str s => unmarshalFold { e with safeMsg := s } rest
        | .null => unmarshalFold e rest
        | _ => none
      else if k = "op" then
        match v with
        | .str s => unmarshalFold { e with op := s } rest
        | .null => unmarshalFold e rest
        | _ => none
      else if k = "details" then
        match v with
        | .obj fs => unmarshalFold { e with details := some fs } rest
        | .null => unmarshalFold e rest
        | _ => none
      else unmarshalFold e rest

/-- `json.Unmarshal(body, &owlErr)` for a zero-valued `owl.Error`:
requires a top-level object (or `null`, which is a successful no-op). -/
def unmarshalOwlError (s : String) : Option OwlError :=
  match jsonUnmarshal s with
  | some (.obj fields) => unmarshalFold { code := 0 } fields
  | some .null => some { code := 0 }
  | _ => none

/-! ## Collaborators: logger and monitor values, recorded effects -/

/-- A logger instance; `none` at a use site models a nil Go interface. -/
inductive LoggerV where
  | noop : LoggerV
  | custom (id : Nat) : LoggerV

/-- A monitor instance. -/
inductive MonitorV where
  | noop : MonitorV
  | custom (id : Nat) : MonitorV

/-- An HTTP transport; `default` is `http.DefaultTransport`. -/
inductive TransportV where
  | defaultTransport : TransportV
  | custom (id : Nat) : TransportV

inductive LogLevel where
  | debug | info | warn | error

/-- A structured-log field value. -/
inductive LogVal where
  | str (s : String) : LogVal
  | int (n : Int) : LogVal
  | dur (n : Nat) : LogVal

/-- One call made to the logging collaborator. -/
structure LogEntry where
  level : LogLevel
  msg : String
  cause : Option GoError
  fields : List (String × LogVal)

inductive MetricKind where
  | counterInc | histogramRecord

/-- One call made to the metrics collaborator (`value` is the recorded
histogram value; a counter increment carries none). -/
structure MetricEvent where
  kind : MetricKind
  name : String
  value : Option Nat
  attrs : List (String × String)

/-! ## Global registry (`globals.go`) -/

/-- The two process-wide `atomic.Value` cells (their holder contents). -/
structure Globals where
  logger : Option LoggerV
  monitor : Option MonitorV

/-- `init()`: both cells start holding the no-op implementations. -/
def initGlobals : Globals :=
  { logger := some .noop, monitor := some .noop }

/-- `SetLogger`: stores only a non-nil logger. -/
def setLogger (l : Option LoggerV) (g : Globals) : Globals :=
  if l.isSome then { g with logger := l } else g

/-- `SetMonitor`: stores only a non-nil monitor. -/
def setMonitor (m : Option MonitorV) (g : Globals) : Globals :=
  if m.isSome then { g with monitor := m } else g

/-- `GetLogger` reads the cell. -/
def getLogger (g : Globals) : Option LoggerV := g.logger

/-- `GetMonitor` reads the cell. -/
def getMonitor (g : Globals) : Option MonitorV := g.monitor

/-- One mutation of the global registry. -/
inductive GlobalOp where
  | setL (l : Option LoggerV) : GlobalOp
  | setM (m : Option MonitorV) : GlobalOp

def applyGlobalOp (g : Globals) : GlobalOp → Globals
  | .setL l => setLogger l g
  | .setM m => setMonitor m g

def applyGlobalOps (ops : List GlobalOp) (g : Globals) : Globals :=
  ops.foldl applyGlobalOp g

/-! ## Server middleware factories (`middleware/factory.go`, `grpc.go`) -/

/-- `middleware.HTTPFactory` (the error encoder is a function value). -/
structure HTTPFactory where
  logger : LoggerV
  monitor : MonitorV
  errorEncoder : GoError → Int × String

/-- `defaultErrorEncoder`: status from `ToHTTPStatus`; a semantic error
found by `errors.As` is marshaled via `MarshalJSON`, anything else gets
the obscured generic body.  `json.Encoder.Encode` appends a newline, and
Go marshals the `map[string]string` body with its keys sorted. -/
def defaultErrorEncoder (e : GoError) : Int × String :=
  let status := toHTTPStatus (some e)
  match errorsAsOwl e with
  | some oe => (status, marshalOwlError oe ++ "\n")
  | none =>
      (status,
       marshalJson (.obj [("code", .str "INTERNAL"), ("message", .str "Internal Server Error")]) ++ "\n")

/-- `middleware.NewHTTPFactory`: nil collaborators are replaced by the
no-op implementations; the encoder defaults to `defaultErrorEncoder`. -/
def newHTTPFactory (l : Option LoggerV) (m : Option MonitorV) : HTTPFactory :=
  { logger := l.getD .noop, monitor := m.getD .noop, errorEncoder := defaultErrorEncoder }

/-- `middleware.GRPCFactory`. -/
structure GRPCFactory where
  logger : LoggerV
  monitor : MonitorV

/-- `middleware.NewGRPCFactory`: nil collaborators become no-ops. -/
def newGRPCFactory (l : Option LoggerV) (m : Option MonitorV) : GRPCFactory :=
  { logger := l.getD .noop, monitor := m.getD .noop }

/-- `middleware.HTTPClient` wrapper state. -/
structure HTTPClientW where
  base : TransportV
  logger : LoggerV

/-- `middleware.NewHTTPClient`: nil logger becomes no-op, nil base becomes
`http.DefaultTransport`. -/
def newHTTPClient (base : Option TransportV) (l : Option LoggerV) : HTTPClientW :=
  { base := base.getD .defaultTransport, logger := l.getD .noop }

/-! ## HTTP server middleware (`HTTPFactory.Wrap`)

The wrapped handler is abstracted by its outcome: it returns normally
(having possibly written a status of its own), returns an error, or
panics.  Trace extraction and the handler advance the logical clock by
`tExtract` and `tHandler`; `start := time.Now()` is the first statement
of the wrapped function, so it reads clock value 0, before extraction. -/

/-- The outcome of one invocation of an `HTTPHandler`. -/
inductive HTTPOutcome where
  | ok (wroteStatus : Option Int) : HTTPOutcome
  | err (e : GoError) : HTTPOutcome
  | panics (v : String) : HTTPOutcome

structure HTTPRequest where
  method : String
  path : String

/-- Everything one call through the middleware produces. -/
structure HTTPResult where
  status : Int
  body : String
  logs : List LogEntry
  metrics : List MetricEvent
  propagatedPanic : Option String
  duration : Nat

/-- The generic obscured 500 body written by the panic-recovery branch. -/
def internalServerErrorBody : String :=
  marshalJson (.obj [("code", .str "INTERNAL"), ("message", .str "Internal Server Error")]) ++ "\n"

/-- `HTTPFactory.Wrap`, one request.  On a handler error the wrapper
logs the internal message and cause (direct type assertion), then writes
the wire response through the error encoder; on success it logs at info
level; on a panic the deferred recovery logs, records panic-tagged
metrics, and writes a 500 — the code after the handler call never runs.
(The handler-written success body is out of scope and left empty.) -/
def wrapHTTP (f : HTTPFactory) (req : HTTPRequest) (h : HTTPOutcome)
    (tExtract tHandler : Nat) : HTTPResult :=
  let start : Nat := 0
  -- trace extraction advances the clock to tExtract;
  -- the handler advances it to tExtract + tHandler
  match h with
  | .panics v =>
      let duration := (tExtract + tHandler) - start
      { status := 500
        body := internalServerErrorBody
        logs := [⟨.error, "panic recovered", none, [("panic", .str v)]⟩]
        metrics :=
          [⟨.counterInc, "http_requests_total", none, [("status", "500"), ("panic", "true")]⟩,
           ⟨.histogramRecord, "http_request_duration_seconds", some duration,
             [("status", "500"), ("panic", "true")]⟩]
        propagatedPanic := none
        duration := duration }
  | .err e =>
      let duration := (tExtract + tHandler) - start
      let status := toHTTPStatus (some e)
      let fields : List (String × LogVal) :=
        [("status", .int status), ("duration", .dur duration),
         ("method", .str req.method), ("path", .str req.path)]
      let logEntry :=
        match e.asOwlDirect with
        | some oe => LogEntry.mk .error oe.msg oe.cause fields
        | none => LogEntry.mk .error "request_failed" (some e) fields
      let enc := f.errorEncoder e
      let attrs := [("method", req.method), ("path", req.path), ("status", toString status)]
      { status := enc.1
        body := enc.2
        logs := [logEntry]
        metrics :=
          [⟨.counterInc, "http_requests_total", none, attrs⟩,
           ⟨.histogramRecord, "http_request_duration_seconds", some duration, attrs⟩]
        propagatedPanic := none
        duration := duration }
  | .ok wrote =>
      let duration := (tExtract + tHandler) - start
      let rwStatus := wrote.getD 200
      let attrs := [("method", req.method), ("path", req.path), ("status", toString rwStatus)]
      { status := rwStatus
        body := ""
        logs :=
          [⟨.info, "request_success", none,
            [("status", .int rwStatus), ("duration", .dur duration),
             ("method", .str req.method), ("path", .str req.path)]⟩]
        metrics :=
          [⟨.counterInc, "http_requests_total", none, attrs⟩,
           ⟨.histogramRecord, "http_request_duration_seconds", some duration, attrs⟩]
        propagatedPanic := none
        duration := duration }

/-! ## gRPC unary server interceptor (`GRPCFactory.UnaryServerInterceptor`)

Trace extraction runs first; `start := time.Now()` reads the clock after
it, at `tExtract`.  The interceptor installs no `recover`, so a handler
panic unwinds past it and none of the subsequent statements run. -/

/-- The outcome of the wrapped unary handler. -/
inductive GrpcOutcome where
  | ok : GrpcOutcome
  | err (e : GoError) : GrpcOutcome
  | panics (v : String) : GrpcOutcome

structure GrpcResult where
  hasResponse : Bool
  returnedError : Option (Nat × String)
  logs : List LogEntry
  metrics : List MetricEvent
  propagatedPanic : Option String
  duration : Option Nat

def unaryServerInterceptor (f : GRPCFactory) (method : String) (h : GrpcOutcome)
    (tExtract tHandler : Nat) : GrpcResult :=
  let start : Nat := tExtract
  match h with
  | .panics v =>
      -- no recovery: the panic propagates; no log, metric, or response
      { hasResponse := false, returnedError := none, logs := [], metrics := []
        propagatedPanic := some v, duration := none }
  | .ok =>
      let duration := (tExtract + tHandler) - start
      let attrs := [("method", method), ("code", "OK")]
      { hasResponse := true
        returnedError := none
        logs :=
          [⟨.info, "grpc_request_success", none,
            [("code", .str "OK"), ("duration", .dur duration), ("method", .str method)]⟩]
        metrics :=
          [⟨.counterInc, "grpc_requests_total", none, attrs⟩,
           ⟨.histogramRecord, "grpc_request_duration_seconds", some duration, attrs⟩]
        propagatedPanic := none
        duration := some duration }
  | .err e =>
      let duration := (tExtract + tHandler) - start
      let codeStr :=
        match statusFromError e with
        | some st => grpcCodeName st.1
        | none => "UNKNOWN"
      let attrs := [("method", method), ("code", codeStr)]
      let gst := toGRPCStatus (some e)
      let fields : List (String × LogVal) :=
        [("code", .str (grpcCodeName gst.1)), ("duration", .dur duration),
         ("method", .str method)]
      let logEntry :=
        match e.asOwlDirect with
        | some oe => LogEntry.mk .error oe.msg oe.cause fields
        | none => LogEntry.mk .error "grpc_request_failed" (some e) fields
      { hasResponse := false
        returnedError := some gst
        logs := [logEntry]
        metrics :=
          [⟨.counterInc, "grpc_requests_total", none, attrs⟩,
           ⟨.histogramRecord, "grpc_request_duration_seconds", some duration, attrs⟩]
        propagatedPanic := none
        duration := some duration }

/-! ## HTTP client wrapper (`HTTPClient.RoundTrip`, `CheckResponse`) -/

/-- An HTTP response as the client sees it: status line, the
`Content-Type` header, and the body stream (unread remainder plus a
closed flag). -/
structure HTTPResponse where
  statusCode : Int
  contentType : String
  body : List Char
  bodyClosed : Bool := false

structure ClientResult where
  response : Option HTTPResponse
  err : Option GoError
  logs : List LogEntry

/-- `HTTPClient.RoundTrip`: injects trace context, executes the base
transport, logs, and returns the transport outcome unmodified (`tRT` is
the measured wall time of the exchange). -/
def httpClientRoundTrip (method url : String)
    (base : Except GoError HTTPResponse) (tRT : Nat) : ClientResult :=
  match base with
  | .error e =>
      { response := none
        err := some e
        logs :=
          [⟨.error, "outbound_request_failed", some e,
            [("duration", .dur tRT), ("method", .str method), ("url", .str url)]⟩] }
  | .ok resp =>
      { response := some resp
        err := none
        logs :=
          [⟨.info, "outbound_request_success", none,
            [("duration", .dur tRT), ("method", .str method), ("url", .str url),
             ("status", .int resp.statusCode)]⟩] }

/-- The limit of `io.LimitReader(resp.Body, 64*1024)`. -/
def bodyLimit : Nat := 65536

/-- The decode-attempt condition of `CheckResponse`:
`isJSON || (len(body) > 0 && body[0] == '{')`, where `isJSON` is the
`Content-Type` sniff (a 16-byte prefix comparison against
"application/json", a dead 15-byte branch — the literal is 16 bytes
long — and an exact-equality fallback). -/
def jsonGuard (ct : String) (body : List Char) : Bool :=
  (if 16 ≤ ct.length ∧ ct.toList.take 16 = "application/json".toList then true
   else if 15 ≤ ct.length ∧ ct.toList.take 15 = "application/json".toList then true
   else ct = "application/json") ||
  (decide (0 < body.length) && body.head? == some braceOpen)

/-- `middleware.CheckResponse`: below 400 nothing happens; otherwise the
body is read (bounded to 64 KiB) and the stream closed, a structured
error is decoded when `jsonGuard` holds, and a decoded error with a
nonzero code is returned as-is; every other case returns the fallback
`Problem(FromHTTPStatus(status), WithMsg(body))`.  Returns the error and
the response's post-call body state. -/
def checkResponse (resp : HTTPResponse) : Option GoError × HTTPResponse :=
  if resp.statusCode < 400 then (none, resp)
  else
    let body := resp.body.take bodyLimit
    let after := { resp with body := resp.body.drop bodyLimit, bodyClosed := true }
    let fallback :=
      GoError.ofOwl (Problem (fromHTTPStatus resp.statusCode) [.withMsg (String.mk body)])
    let result :=
      if jsonGuard resp.contentType body then
        match unmarshalOwlError (String.mk body) with
        | some oe => if oe.code ≠ 0 then GoError.ofOwl oe else fallback
        | none => fallback
      else fallback
    (some result, after)

/-! ## Small helpers for stating the claims -/

/-- Boolean substring test on character lists. -/
def containsSub : List Char → List Char → Bool
  | n, [] => n.isPrefixOf []
  | n, c :: t => n.isPrefixOf (c :: t) || containsSub n t

/-- Key lookup in a detail map (first match wins). -/
def detailLookup (k : String) : List (String × Json) → Option Json
  | [] => none
  | (k0, v) :: rest => if k = k0 then some v else detailLookup k rest

end Owl

namespace Owl

/-! # Claims -/

/-- **C1.**  A handler returning
`NewError(Unauthorized, withMessage("db fail"), withSafeMessage("access denied"))`
through the HTTP server interceptor yields status 401; the wire body is
exactly the safe projection `{"code":"UNAUTHORIZED","message":"access denied"}`
(plus the encoder's trailing newline); the single error-level log entry
carries the internal message "db fail" and the wrapped cause; and
"db fail" does not occur anywhere in the HTTP body.  The two channels are
never mixed. -/
theorem claim_C1_dual_channel (req : HTTPRequest) (l : Option LoggerV)
    (m : Option MonitorV) (tE tH : Nat) :
    (wrapHTTP (newHTTPFactory l m) req
      (.err (.ofOwl (Problem codeUnauthorized [.withMsg "db fail", .withSafeMsg "access denied"])))
      tE tH).status = 401 ∧
    (wrapHTTP (newHTTPFactory l m) req
      (.err (.ofOwl (Problem codeUnauthorized [.withMsg "db fail", .withSafeMsg "access denied"])))
      tE tH).body = "\x7b\"code\":\"UNAUTHORIZED\",\"message\":\"access denied\"\x7d\n" ∧
    (wrapHTTP (newHTTPFactory l m) req
      (.err (.ofOwl (Problem codeUnauthorized [.withMsg "db fail", .withSafeMsg "access denied"])))
      tE tH).logs =
      [LogEntry.mk .error "db fail" none
        [("status", .int 401), ("duration", .dur (tE + tH)),
         ("method", .str req.method), ("path", .str req.path)]] ∧
    containsSub "db fail".toList
      ("\x7b\"code\":\"UNAUTHORIZED\",\"message\":\"access denied\"\x7d\n").toList = false := by
  refine ⟨rfl, rfl, ?_, by decide⟩
  simp [wrapHTTP, Problem, applyOption, toHTTPStatus, errorsAsOwl, GoError.ofOwl,
    GoError.asOwlDirect, codeOK, codeInvalid, codeUnauthorized]

/-- **C2 (counterexample).**  The claim "the serialized output never
contains the internal message as a substring unless that same string was
also explicitly set as the safe message" is false: for the error with
code `NotFound`, internal message `"NOT_FOUND"` and no safe message, the
serialization contains the internal message (the code symbol coincides
with it) although the safe message was never set to it. -/
theorem claim_C2_counterexample :
    containsSub ("NOT_FOUND").toList
      (marshalOwlError { code := codeNotFound, msg := "NOT_FOUND" }).toList = true ∧
    ({ code := codeNotFound, msg := "NOT_FOUND" } : OwlError).safeMsg ≠
      ({ code := codeNotFound, msg := "NOT_FOUND" } : OwlError).msg := by
  refine ⟨by decide, by decide⟩

/-- **C2 (amended).**  `Serialize` emits exactly
`{code: symbol, message: safe-or-symbol-fallback}` (plus `details` when
the detail map is nonempty); the output is a function of the code, safe
message, and details alone — replacing the internal message and the
wrapped cause by anything leaves the output unchanged, so neither is
ever included.  (The internal message can therefore occur in the output
only by coinciding with text contributed by those three fields, as in
the counterexample.) -/
theorem claim_C2_serialize_safe (e : OwlError) (msg2 : String) (err2 : Option GoError) :
    marshalOwlError { e with msg := msg2, cause := err2 } = marshalOwlError e ∧
    (marshalOwlError e =
        marshalJson (.obj [("code", .str (codeString e.code)),
          ("message", .str (wireMessage e))]) ∨
      ∃ ds, e.details = some ds ∧ ds ≠ [] ∧
        marshalOwlError e =
          marshalJson (.obj [("code", .str (codeString e.code)),
            ("message", .str (wireMessage e)), ("details", .obj ds)])) := by
  constructor
  · simp [marshalOwlError, wireMessage]
  · match h : e.details with
    | none => left; simp [marshalOwlError, h]
    | some [] => left; simp [marshalOwlError, h]
    | some (d :: ds) =>
        right
        exact ⟨d :: ds, rfl, by simp, by simp [marshalOwlError, h]⟩

/-- **C4.**  For each of the eight exactly-mapped codes `c`,
`FromHTTPStatus(ToHTTPStatus(NewError(c))) = c`; `Unknown` does not
round-trip but collapses to HTTP 500 on the outbound side. -/
theorem claim_C4_roundtrip (c : Nat)
    (h : c ∈ [codeOK, codeInvalid, codeUnauthorized, codePermissionDenied,
      codeNotFound, codeUnavailable, codeDeadlineExceeded, codeInternal]) :
    fromHTTPStatus (toHTTPStatus (some (.ofOwl (Problem c [])))) = c ∧
    toHTTPStatus (some (.ofOwl (Problem codeUnknown []))) = 500 := by
  refine ⟨?_, rfl⟩
  fin_cases h <;> rfl

/-- **C4 (witness).**  The round-trip at `NotFound`. -/
theorem claim_C4_roundtrip_witness :
    fromHTTPStatus (toHTTPStatus (some (.ofOwl (Problem codeNotFound [])))) = codeNotFound ∧
    toHTTPStatus (some (.ofOwl (Problem codeUnknown []))) = 500 :=
  claim_C4_roundtrip codeNotFound (by decide)

/-- **C3 (counterexample).**  The claim fails for the gRPC unary server
interceptor: it installs no recovery, so a handler panicking with
`"boom"` propagates past the interceptor (and, in passing, the HTTP
middleware's recovery log entry carries only a `panic` field — no stack
trace is captured). -/
theorem claim_C3_counterexample :
    (unaryServerInterceptor (newGRPCFactory none none) "/svc/Method"
        (.panics "boom") 0 0).propagatedPanic = some "boom" ∧
    ((wrapHTTP (newHTTPFactory none none) ⟨"GET", "/p"⟩ (.panics "boom") 0 0).logs.map
        fun en => en.fields.map Prod.fst) = [["panic"]] :=
  ⟨rfl, rfl⟩

/-- **C3 (amended).**  Only the HTTP middleware contains panics: a
handler panic is caught there and never propagated — the call produces a
500 response with the obscured body, one error-level log entry carrying
the panic value (no stack trace), and exactly one counter increment and
one histogram record, both tagged `panic="true"`.  The gRPC unary server
interceptor performs no recovery: the panic propagates past it and no
log, metric, or response is produced. -/
theorem claim_C3_panic_containment (l : Option LoggerV) (m : Option MonitorV)
    (req : HTTPRequest) (v : String) (tE tH : Nat) (f : GRPCFactory) (method : String) :
    wrapHTTP (newHTTPFactory l m) req (.panics v) tE tH =
      { status := 500
        body := internalServerErrorBody
        logs := [⟨.error, "panic recovered", none, [("panic", .str v)]⟩]
        metrics :=
          [⟨.counterInc, "http_requests_total", none, [("status", "500"), ("panic", "true")]⟩,
           ⟨.histogramRecord, "http_request_duration_seconds", some (tE + tH),
             [("status", "500"), ("panic", "true")]⟩]
        propagatedPanic := none
        duration := tE + tH } ∧
    unaryServerInterceptor f method (.panics v) tE tH =
      { hasResponse := false, returnedError := none, logs := [], metrics := []
        propagatedPanic := some v, duration := none } := by
  constructor <;> simp [wrapHTTP, unaryServerInterceptor]

/-- **C7 (counterexample).**  Metric emission is not uniform across
outcome branches: a panicking gRPC handler produces no metric at all
(the interceptor has no recovery), and the HTTP panic branch tags its
one increment and one record with `status` and `panic` only — the
`method` identifier is absent. -/
theorem claim_C7_counterexample :
    (unaryServerInterceptor (newGRPCFactory none none) "/m" (.panics "boom") 0 0).metrics.length = 0 ∧
    ((wrapHTTP (newHTTPFactory none none) ⟨"GET", "/p"⟩ (.panics "boom") 0 0).metrics.map
        fun ev => ev.attrs.map Prod.fst) = [["status", "panic"], ["status", "panic"]] :=
  ⟨rfl, rfl⟩

/-- **C7 (amended).**  Per call, the HTTP middleware performs exactly one
counter increment and one histogram record on every branch: tagged with
method, path and status on the success and error branches, but with
status and `panic="true"` only (no method/path) on the panic branch.
The gRPC interceptor performs exactly one increment and one record
tagged with method and code on its success and error branches, and emits
nothing when the handler panics. -/
theorem claim_C7_metrics (l : Option LoggerV) (m : Option MonitorV) (req : HTTPRequest)
    (w : Option Int) (e : GoError) (v : String) (tE tH : Nat)
    (f : GRPCFactory) (method : String) :
    (wrapHTTP (newHTTPFactory l m) req (.ok w) tE tH).metrics =
      [⟨.counterInc, "http_requests_total", none,
         [("method", req.method), ("path", req.path), ("status", toString (w.getD 200))]⟩,
       ⟨.histogramRecord, "http_request_duration_seconds", some (tE + tH),
         [("method", req.method), ("path", req.path), ("status", toString (w.getD 200))]⟩] ∧
    (wrapHTTP (newHTTPFactory l m) req (.err e) tE tH).metrics =
      [⟨.counterInc, "http_requests_total", none,
         [("method", req.method), ("path", req.path), ("status", toString (toHTTPStatus (some e)))]⟩,
       ⟨.histogramRecord, "http_request_duration_seconds", some (tE + tH),
         [("method", req.method), ("path", req.path), ("status", toString (toHTTPStatus (some e)))]⟩] ∧
    (wrapHTTP (newHTTPFactory l m) req (.panics v) tE tH).metrics =
      [⟨.counterInc, "http_requests_total", none, [("status", "500"), ("panic", "true")]⟩,
       ⟨.histogramRecord, "http_request_duration_seconds", some (tE + tH),
         [("status", "500"), ("panic", "true")]⟩] ∧
    (unaryServerInterceptor f method .ok tE tH).metrics =
      [⟨.counterInc, "grpc_requests_total", none, [("method", method), ("code", "OK")]⟩,
       ⟨.histogramRecord, "grpc_request_duration_seconds", some tH,
         [("method", method), ("code", "OK")]⟩] ∧
    (unaryServerInterceptor f method (.err e) tE tH).metrics =
      [⟨.counterInc, "grpc_requests_total", none,
         [("method", method),
          ("code", match statusFromError e with
                   | some st => grpcCodeName st.1
                   | none => "UNKNOWN")]⟩,
       ⟨.histogramRecord, "grpc_request_duration_seconds", some tH,
         [("method", method),
          ("code", match statusFromError e with
                   | some st => grpcCodeName st.1
                   | none => "UNKNOWN")]⟩] ∧
    (unaryServerInterceptor f method (.panics v) tE tH).metrics = [] := by
  refine ⟨?_, ?_, ?_, ?_, ?_, ?_⟩ <;> simp [wrapHTTP, unaryServerInterceptor]

/-- **C9 (counterexample).**  In the HTTP middleware the timer starts at
function entry, before trace-context extraction: with extraction taking
5 clock units and the handler 3, the recorded duration is 8, not the
handler-only 3 the claim requires. -/
theorem claim_C9_counterexample :
    (wrapHTTP (newHTTPFactory none none) ⟨"GET", "/x"⟩ (.ok none) 5 3).duration = 8 ∧
    (8 : Nat) ≠ 3 :=
  ⟨rfl, by decide⟩

/-- **C9 (amended).**  In the gRPC interceptor the timer starts after
trace extraction, immediately before the handler, so the recorded
duration is the handler time alone; in the HTTP middleware the timer
starts at entry, before trace extraction, so every branch (success,
error, panic recovery) records extraction time plus handler time. -/
theorem claim_C9_timer (l : Option LoggerV) (m : Option MonitorV) (req : HTTPRequest)
    (w : Option Int) (e : GoError) (v : String) (tE tH : Nat)
    (f : GRPCFactory) (method : String) :
    (unaryServerInterceptor f method .ok tE tH).duration = some tH ∧
    (unaryServerInterceptor f method (.err e) tE tH).duration = some tH ∧
    (wrapHTTP (newHTTPFactory l m) req (.ok w) tE tH).duration = tE + tH ∧
    (wrapHTTP (newHTTPFactory l m) req (.err e) tE tH).duration = tE + tH ∧
    (wrapHTTP (newHTTPFactory l m) req (.panics v) tE tH).duration = tE + tH := by
  refine ⟨?_, ?_, ?_, ?_, ?_⟩ <;> simp [wrapHTTP, unaryServerInterceptor]

/-- **C5 (counterexample).**  The decoded structured error is not always
returned when the body decodes to a recognizable code: for status 404,
`Content-Type: text/plain`, and a body that is a valid error document
preceded by one space, `json.Unmarshal` (which skips leading whitespace)
decodes the body to code `NOT_FOUND` with empty message, yet
`CheckResponse` — whose decode attempt is gated on the content type or a
leading brace as the first byte — returns the synthesized fallback
carrying the raw body as its internal message instead. -/
theorem claim_C5_counterexample :
    (unmarshalOwlError " \x7b\"code\":\"NOT_FOUND\"\x7d").map OwlError.code = some codeNotFound ∧
    (unmarshalOwlError " \x7b\"code\":\"NOT_FOUND\"\x7d").map OwlError.msg = some "" ∧
    ((checkResponse ⟨404, "text/plain", (" \x7b\"code\":\"NOT_FOUND\"\x7d").toList, false⟩).1.bind
        errorsAsOwl).map OwlError.msg = some " \x7b\"code\":\"NOT_FOUND\"\x7d" := by
  refine ⟨by decide, by decide, by decide⟩

/-- **C5 (amended).**  When no response was received the caller gets the
raw transport error unmodified; a response below 400 hydrates to no
error; for a response at or above 400 the result is always a semantic
error (never a bare decoding error): the decoded body error as-is when
the decode attempt is made (content type sniffs as JSON or the first
body byte is a brace) and yields a recognizable (nonzero) code, and in
every other case the synthesized fallback whose code is
`FromHTTPStatus(status)` and whose internal message is the body bounded
to 64 KiB. -/
theorem claim_C5_hydration :
    (∀ (method url : String) (e : GoError) (tRT : Nat),
      (httpClientRoundTrip method url (.error e) tRT).err = some e ∧
      (httpClientRoundTrip method url (.error e) tRT).response = none) ∧
    (∀ resp : HTTPResponse, resp.statusCode < 400 → (checkResponse resp).1 = none) ∧
    (∀ resp : HTTPResponse, 400 ≤ resp.statusCode →
      (jsonGuard resp.contentType (resp.body.take bodyLimit) = true ∧
        ∃ oe, unmarshalOwlError (String.mk (resp.body.take bodyLimit)) = some oe ∧
          oe.code ≠ 0 ∧ (checkResponse resp).1 = some (.ofOwl oe)) ∨
      (checkResponse resp).1 =
        some (.ofOwl (Problem (fromHTTPStatus resp.statusCode)
          [.withMsg (String.mk (resp.body.take bodyLimit))]))) := by
  refine ⟨fun method url e tRT => ⟨rfl, rfl⟩, ?_, ?_⟩
  · intro resp h
    simp [checkResponse, h]
  · intro resp h
    have hlt : ¬ resp.statusCode < 400 := not_lt.mpr h
    by_cases hg : jsonGuard resp.contentType (resp.body.take bodyLimit) = true
    · cases hdec : unmarshalOwlError (String.mk (resp.body.take bodyLimit)) with
      | none => right; simp [checkResponse, hlt, hg, hdec]
      | some oe =>
          by_cases hcode : oe.code = 0
          · right; simp [checkResponse, hlt, hg, hdec, hcode]
          · left
            exact ⟨hg, oe, rfl, hcode, by simp [checkResponse, hlt, hg, hdec, hcode]⟩
    · right; simp [checkResponse, hlt, hg]

/-- **C5 (witness).**  The fallback branch at a concrete plain-text 500
response. -/
theorem claim_C5_hydration_witness :
    (jsonGuard ("" : String) (("Critical Failure").toList.take bodyLimit) = true ∧
      ∃ oe, unmarshalOwlError (String.mk (("Critical Failure").toList.take bodyLimit)) = some oe ∧
        oe.code ≠ 0 ∧
        (checkResponse ⟨500, "", ("Critical Failure").toList, false⟩).1 = some (.ofOwl oe)) ∨
    (checkResponse ⟨500, "", ("Critical Failure").toList, false⟩).1 =
      some (.ofOwl (Problem (fromHTTPStatus 500)
        [.withMsg (String.mk (("Critical Failure").toList.take bodyLimit))])) :=
  claim_C5_hydration.2.2 ⟨500, "", ("Critical Failure").toList, false⟩ (by decide)

/-- **C6 (code bug).**  `CheckResponse` does not restore the body: at the
repository's own test input (status 400, JSON content type, body
`{"code": "INVALID", "message": "bad request"}`), the post-call body
stream is empty and closed while the original body was nonempty — the
body is not re-readable, contradicting `TestCheckResponse_BodyRestoration`
and the claim. -/
theorem claim_C6_body_not_restored :
    (checkResponse ⟨400, "application/json",
        ("\x7b\"code\": \"INVALID\", \"message\": \"bad request\"\x7d").toList, false⟩).2.body = [] ∧
    (checkResponse ⟨400, "application/json",
        ("\x7b\"code\": \"INVALID\", \"message\": \"bad request\"\x7d").toList, false⟩).2.bodyClosed = true ∧
    ("\x7b\"code\": \"INVALID\", \"message\": \"bad request\"\x7d").toList ≠ [] := by
  refine ⟨by decide, by decide, by decide⟩

theorem detailLookup_detailSet_self (l : List (String × Json)) (k : String) (v : Json) :
    detailLookup k (detailSet l k v) = some v := by
  induction l with
  | nil => simp [detailSet, detailLookup]
  | cons kv rest ih =>
      obtain ⟨k0, v0⟩ := kv
      by_cases hk : k = k0
      · simp [detailSet, hk, detailLookup]
      · simp [detailSet, hk, detailLookup, ih]

theorem detailLookup_detailSet_ne (l : List (String × Json)) (k : String) (v : Json)
    (k2 : String) (h : k2 ≠ k) :
    detailLookup k2 (detailSet l k v) = detailLookup k2 l := by
  induction l with
  | nil => simp [detailSet, detailLookup, h]
  | cons kv rest ih =>
      obtain ⟨k0, v0⟩ := kv
      by_cases hk : k = k0
      · subst hk
        simp [detailSet, detailLookup, h]
      · by_cases hk2 : k2 = k0
        · simp [detailSet, hk, detailLookup, hk2]
        · simp [detailSet, hk, detailLookup, hk2, ih]

theorem detailLookup_detailsUnion (old ds : List (String × Json)) (k : String) :
    detailLookup k (detailsUnion old ds) =
      (detailLookup k ds.reverse).or (detailLookup k old) := by
  induction ds using List.reverseRecOn with
  | nil => simp [detailsUnion, detailLookup]
  | append_singleton ds2 kv ih =>
      obtain ⟨k1, v1⟩ := kv
      have hstep : detailsUnion old (ds2 ++ [(k1, v1)]) =
          detailSet (detailsUnion old ds2) k1 v1 := by
        simp [detailsUnion]
      by_cases hk : k = k1
      · subst hk
        simp [hstep, detailLookup_detailSet_self, detailLookup]
      · simp [hstep, detailLookup_detailSet_ne _ _ _ _ hk, ih, detailLookup, hk]

/-- **C8.**  The builder applies attachments in the order given (the
fold over a concatenation is the fold of the second list started from
the first list's result); for internal message, safe message and
operation a later attachment of the same kind overwrites the earlier
one; a later attached cause is combined with the prior cause inside an
`errors.Join` aggregate rather than discarding it; and merging details
is a key-wise union — a new entry wins for a colliding key (the last
occurrence winning among the new entries) and every non-colliding
existing entry is preserved. -/
theorem claim_C8_builder_laws (c : Nat) (o1 o2 : List ErrOption) (e : OwlError)
    (s1 s2 : String) (n : GoError) (ds : List (String × Json)) (k : String) :
    Problem c (o1 ++ o2) = o2.foldl applyOption (Problem c o1) ∧
    applyOption (applyOption e (.withMsg s1)) (.withMsg s2) = applyOption e (.withMsg s2) ∧
    applyOption (applyOption e (.withSafeMsg s1)) (.withSafeMsg s2) =
      applyOption e (.withSafeMsg s2) ∧
    applyOption (applyOption e (.withOp s1)) (.withOp s2) = applyOption e (.withOp s2) ∧
    (applyOption e (.withErr (some n))).cause =
      some (match e.cause with
            | some p => GoError.join [p, n]
            | none => n) ∧
    detailLookup k ((applyOption e (.withDetails ds)).details.getD []) =
      (detailLookup k ds.reverse).or (detailLookup k (e.details.getD [])) := by
  refine ⟨by simp [Problem], rfl, rfl, rfl, ?_, ?_⟩
  · cases hc : e.cause <;> simp [applyOption, withErrApply, goErrorsJoin, hc]
  · simpa [applyOption] using detailLookup_detailsUnion (e.details.getD []) ds k

theorem globals_invariant_preserved (ops : List GlobalOp) (g : Globals)
    (hl : g.logger.isSome = true) (hm : g.monitor.isSome = true) :
    (applyGlobalOps ops g).logger.isSome = true ∧
    (applyGlobalOps ops g).monitor.isSome = true := by
  induction ops generalizing g with
  | nil => exact ⟨hl, hm⟩
  | cons op rest ih =>
      have h1 : (applyGlobalOp g op).logger.isSome = true := by
        cases op with
        | setL l => cases l <;> simp_all [applyGlobalOp, setLogger]
        | setM m => cases m <;> simp_all [applyGlobalOp, setMonitor]
      have h2 : (applyGlobalOp g op).monitor.isSome = true := by
        cases op with
        | setL l => cases l <;> simp_all [applyGlobalOp, setLogger]
        | setM m => cases m <;> simp_all [applyGlobalOp, setMonitor]
      exact ih (applyGlobalOp g op) h1 h2

/-- **C10.**  No core operation ever observes a nil logging or metrics
collaborator: starting from the initialized globals (no-op instances),
any sequence of `SetLogger`/`SetMonitor` calls — including calls with
nil — leaves both global accessors returning a non-nil instance, a
nil argument leaves the stored instance unchanged, and each public
constructor substitutes the no-op implementation (or the default
transport) for a nil argument. -/
theorem claim_C10_nil_safety :
    (∀ ops : List GlobalOp,
      (getLogger (applyGlobalOps ops initGlobals)).isSome = true ∧
      (getMonitor (applyGlobalOps ops initGlobals)).isSome = true) ∧
    (∀ g, setLogger none g = g) ∧
    (∀ g, setMonitor none g = g) ∧
    (∀ m, (newHTTPFactory none m).logger = .noop) ∧
    (∀ l, (newHTTPFactory l none).monitor = .noop) ∧
    (∀ m, (newGRPCFactory none m).logger = .noop) ∧
    (∀ l, (newGRPCFactory l none).monitor = .noop) ∧
    (∀ b, (newHTTPClient b none).logger = .noop) ∧
    (∀ l, (newHTTPClient none l).base = .defaultTransport) := by
  refine ⟨fun ops => globals_invariant_preserved ops initGlobals rfl rfl,
    fun g => rfl, fun g => rfl, fun m => rfl, fun l => rfl, fun m => rfl,
    fun l => rfl, fun b => rfl, fun l => rfl⟩

end Owl
